import Mathlib

/-!
Shallow embedding of stalld's textual runqueue source (src/sched_debug.c)
and verification of the frozen claims about it.

Conventions of the embedding:
* A C string (a NUL-terminated `char *`) is modelled as a `List Char`
  holding the characters before the terminator; the end of the list is
  the NUL.  A pointer into a buffer is modelled as the suffix of the
  buffer starting at that pointer.  Writing `'\0'` at index `k` of a
  string is modelled as truncating the list to its first `k` characters.
* Kernel files read by the program (`/proc/<pid>/stat`, the sched_debug
  dump) are supplied as oracle parameters.
* `while` loops whose progress depends on data are given explicit fuel;
  running out of fuel (or undefined behaviour such as dereferencing
  `NULL`) is the `CResult.hang` outcome, and a call to `die()` is
  `CResult.died`.
-/

/-- A C-string / buffer: characters before the NUL terminator. -/
abbrev Cstr := List Char

/-- C `isspace` on the ASCII characters the program manipulates. -/
def isspace (c : Char) : Bool :=
  c = ' ' || c = '\t' || c = '\n' || c = '\x0b' || c = '\x0c' || c = '\r'

/-- `skipchars` (sched_debug.c:146): advance while the character is
neither NUL nor whitespace. -/
def skipchars (s : Cstr) : Cstr :=
  s.dropWhile (fun c => !(isspace c))

/-- `skipspaces` (sched_debug.c:157): advance over whitespace, but stop
at a newline (newline is not a space for this helper). -/
def skipspaces (s : Cstr) : Cstr :=
  s.dropWhile (fun c => isspace c && c != '\n')

/-- `strchr(s, c)` followed by `ptr++`: the suffix just after the first
occurrence of `c`, or `none` when `c` does not occur. -/
def dropThrough (c : Char) : Cstr → Option Cstr
  | [] => none
  | a :: t => if a = c then some t else dropThrough c t

/-- `nextline` (sched_debug.c:164): the text after the next newline, or
`none` (NULL) when there is no newline. -/
def nextline (s : Cstr) : Option Cstr :=
  dropThrough '\n' s

/-- `skipwords` (sched_debug.c:174): skip `nwords` words, each step
being `skipspaces` followed by `skipchars`. -/
def skipwords (s : Cstr) : Nat → Cstr
  | 0 => s
  | n + 1 => skipwords (skipchars (skipspaces s)) n

/-- `strstr(s, pat)`: the suffix of `s` starting at the first occurrence
of `pat`, or `none` (NULL). -/
def strstr (pat : Cstr) : Cstr → Option Cstr
  | [] => if pat = [] then some [] else none
  | a :: t => if pat.isPrefixOf (a :: t) then some (a :: t) else strstr pat t

/-- Numeric value of a run of decimal digits, most significant first. -/
def digitsVal (ds : Cstr) : Nat :=
  ds.foldl (fun acc c => 10 * acc + (c.toNat - '0'.toNat)) 0

/-- `strtol(s, NULL, 10)`: skip C whitespace (including newlines), an
optional sign, then the longest run of decimal digits; no digits gives 0.
Overflow clamping is not modelled (all values in scope fit in `long`). -/
def strtol (s : Cstr) : Int :=
  let s1 := s.dropWhile isspace
  let (sign, s2) : Int × Cstr :=
    match s1 with
    | '-' :: t => (-1, t)
    | '+' :: t => (1, t)
    | t => (1, t)
  sign * (digitsVal (s2.takeWhile Char.isDigit) : Int)

/-- `is_runnable` (sched_debug.c:296).  `statOf pid` is the contents of
`/proc/<pid>/stat`, `none` meaning the open or the read failed.  The C
function reads at most 512 bytes, then walks to the third
whitespace-delimited field with `skipchars`/`skipspaces` and reports
runnable exactly for state character `R` (every other character,
including end of data, leaves `runnable = 0`).  The `snprintf` overflow
branch is unreachable (the path is at most 22 bytes) and not modelled. -/
def is_runnable (statOf : Int → Option Cstr) (pid : Int) : Bool :=
  if pid = 0 then false
  else
    match statOf pid with
    | none => false
    | some content =>
      let stat := content.take 512
      let p := skipspaces (skipchars (skipspaces (skipchars stat)))
      match p.head? with
      | some c => c == 'R'
      | none => false

/-- `TASK_MARKER` (sched_debug.h). -/
def TASK_MARKER : Cstr := "runnable tasks:".toList

/-- Modelled from the spec: `COMM_SIZE` is defined in stalld.h, which is
not under src/.  §3 fixes `comm` at "at most 15 printable bytes plus
terminator", and §6 gives the record field as `comm[16]`, so the
capacity is 16 bytes. -/
def COMM_SIZE : Nat := 16

/-- `enum task_format` (sched_debug.h); `TASK_FORMAT_UNKNOWN` is never
produced by `detect_task_format` (both branches assign a format). -/
inductive TaskFormat where
  | old
  | new
deriving DecidableEq

/-- `struct task_format_offsets` (sched_debug.h): zero-based *word*
offsets of the four header columns used for parsing (the unused
`wait_time` member is never written and is omitted). -/
structure TaskOffsets where
  task : Nat
  pid : Nat
  switches : Nat
  prio : Nat
deriving DecidableEq

/-- `struct task_info` (stalld.h, fields as used by sched_debug.c):
`comm` is the stored name (the NUL terminator is implicit in the list
model). -/
structure task_info where
  comm : Cstr
  pid : Int
  tgid : Int
  ctxsw : Int
  prio : Int
  since : Int
deriving DecidableEq

/-- `struct cpu_info` (stalld.h, fields touched by sched_debug.c).
`starving = none` models a NULL `struct task_info *` pointer. -/
structure cpu_info where
  id : Int
  nr_running : Int
  nr_rt_running : Int
  nr_waiting_tasks : Int
  starving : Option (List task_info)
deriving DecidableEq

/-- Ambient state and kernel oracles for the textual source:
the platform flag (x86 uses a trailing comma in the cpu header), the
auto-detected format and offsets (`config_task_format`,
`config_task_format_offsets`), the `/proc/<pid>/stat` oracle used by
`is_runnable`, the `get_tgid` oracle (defined outside src/), and the
current `time(NULL)`. -/
structure Env where
  x86 : Bool
  fmt : TaskFormat
  offs : TaskOffsets
  statOf : Int → Option Cstr
  tgidOf : Int → Int
  now : Int

/-- Outcome of running a piece of the C program: normal return,
process exit through `die()`, or no return at all (an infinite loop, or
undefined behaviour such as dereferencing NULL). -/
inductive CResult (α : Type) where
  | ok : α → CResult α
  | died : CResult α
  | hang : CResult α
deriving DecidableEq

/-- The `while (tasks < nr_entries)` loop of `parse_task_lines`
(sched_debug.c:381-444), with explicit fuel.  The loop state is the
accumulated task array, `ptr` and `line`; note that the C loop never
advances `line`, and that the `'R'` test reads `ptr`, which still points
at the task marker (first iteration) or at the end of the switches
field (later iterations). -/
def parseLoop (env : Env) (nr_entries : Int) :
    Nat → List task_info → Cstr → Cstr → CResult (List task_info)
  | 0, _, _, _ => .hang
  | fuel + 1, tasks, ptr, line =>
    if (tasks.length : Int) ≥ nr_entries then .ok tasks
    else if env.fmt = .old ∧ ptr.head? = some 'R' then
      match dropThrough '\n' ptr with
      | none => .hang
      | some rest => parseLoop env nr_entries fuel tasks rest line
    else
      let p := skipwords line env.offs.task
      let e := skipchars p
      let comm_size := min (p.length - e.length) (COMM_SIZE - 1)
      let comm := p.take comm_size
      let pid := strtol (skipwords line env.offs.pid)
      let ctxsw := strtol (skipwords line env.offs.switches)
      let prio := strtol (skipwords line env.offs.prio)
      let ptr' := skipwords line env.offs.prio
      if env.fmt = .new ∨ is_runnable env.statOf pid = true then
        parseLoop env nr_entries fuel
          (tasks ++ [{ comm := comm, pid := pid, tgid := env.tgidOf pid,
                       ctxsw := ctxsw, prio := prio, since := env.now }])
          ptr' line
      else
        parseLoop env nr_entries fuel tasks ptr' line

/-- `parse_task_lines` (sched_debug.c:357): `die` when the task marker
is absent; fewer than two expected entries yield no tasks; otherwise the
header and divider lines are skipped and the loop runs.  A NULL from
either `nextline` would be dereferenced by the C code (`hang`). -/
def parse_task_lines (fuel : Nat) (env : Env) (buffer : Cstr)
    (nr_entries : Int) : CResult (List task_info) :=
  match strstr TASK_MARKER buffer with
  | none => .died
  | some ptr =>
    if nr_entries < 2 then .ok []
    else
      match nextline ptr with
      | none => .hang
      | some l1 =>
        match nextline l1 with
        | none => .hang
        | some line => parseLoop env nr_entries fuel [] ptr line

/-- The counting loop of `count_task_lines` (sched_debug.c:468-475) as
a character-level walk.  The C loop counts one line whenever it stands
at a line start with data left (`lines++`), then jumps past the line's
newline (`strchr`, `ptr++`), stopping at end of data or when the line
has no terminating newline; equivalently, walking the characters with a
flag saying whether the current line has already been counted: an
uncounted position with data left contributes one line, and a newline
resets the flag. -/
def countLinesAux : Bool → Cstr → Nat
  | _, [] => 0
  | inLine, c :: t =>
    (if inLine then 0 else 1) + countLinesAux (c != '\n') t

/-- `count_task_lines` (sched_debug.c:449): find the task marker, then
the end of the dashed divider (`"-\n"`), then count the remaining
lines. -/
def count_task_lines (buffer : Cstr) : Nat :=
  match strstr TASK_MARKER buffer with
  | none => 0
  | some p =>
    match strstr ('-' :: '\n' :: []) p with
    | none => 0
    | some q => countLinesAux false (q.drop 2)

/-- Modelled from the spec: `get_variable_long_value` is defined in a
repository file that is not under src/.  Per §4.1/§6 the per-CPU
aggregate counters appear as `<name> : <value>` lines; the function
yields the integer following the first occurrence of `name` (after the
colon), and `-1` when `name` is not present. -/
def get_variable_long_value (buffer : Cstr) (name : Cstr) : Int :=
  match strstr name buffer with
  | none => -1
  | some p =>
    match dropThrough ':' p with
    | none => -1
    | some q => strtol q

/-- Modelled from the spec: `merge_taks_info` is defined in a repository
file that is not under src/.  §4.3: a fresh entry keeps the prior
`since` exactly when a prior entry has the same tid and an unchanged
context-switch count; otherwise the fresh entry (whose `since` is the
current time) stands. -/
def merge_taks_info (old fresh : List task_info) : List task_info :=
  fresh.map fun f =>
    match old.find? (fun p => p.pid == f.pid && p.ctxsw == f.ctxsw) with
    | some p => { f with since := p.since }
    | none => f

/-- The `cpu_header` string built by `get_cpu_info_start`
(sched_debug.c:80-85): `"cpu#<N>,"` on x86, `"cpu#<N>\n"` elsewhere. -/
def cpuHeader (x86 : Bool) (cpu : Int) : Cstr :=
  "cpu#".toList ++ (toString cpu).toList ++ [if x86 then ',' else '\n']

/-- `get_cpu_info_start` (sched_debug.c:74). -/
def get_cpu_info_start (x86 : Bool) (buffer : Cstr) (cpu : Int) : Option Cstr :=
  strstr (cpuHeader x86 cpu) buffer

/-- `get_next_cpu_info_start` (sched_debug.c:90): skip 10 characters,
then search for the next `"cpu#"`. -/
def get_next_cpu_info_start (start : Cstr) : Option Cstr :=
  strstr ("cpu#".toList) (start.drop 10)

/-- `alloc_and_fill_cpu_buffer` (sched_debug.c:104).  `size` is the
pointer difference; after `strncpy` the byte at `size-1` is overwritten
with NUL, so the resulting C string is the first `size-1` characters of
the block (a `malloc` failure, which C also reports as NULL, is not
modelled). -/
def alloc_and_fill_cpu_buffer (x86 : Bool) (cpu : Int) (sched_dbg : Cstr)
    (sched_dbg_size : Nat) : Option Cstr :=
  match get_cpu_info_start x86 sched_dbg cpu with
  | none => none
  | some cpu_start =>
    let next_pos : Int :=
      match get_next_cpu_info_start cpu_start with
      | some nx => (sched_dbg.length : Int) - (nx.length : Int)
      | none => (sched_dbg_size : Int)
    let cpu_pos : Int := (sched_dbg.length : Int) - (cpu_start.length : Int)
    let size : Int := next_pos - cpu_pos
    if size ≤ 0 then none
    else some (cpu_start.take (size.toNat - 1))

/-- `fill_waiting_task` (sched_debug.c:478): the expected entry count is
the counted task lines (old format) or `nr_running` (new format); a
non-positive count returns immediately with no tasks.  The returned
list is the populated portion of the `starving` array (its length is
the returned `nr_waiting`). -/
def fill_waiting_task (fuel : Nat) (env : Env) (buffer : Cstr)
    (ci : cpu_info) : CResult (List task_info) :=
  let nr_entries : Int :=
    if env.fmt = .old then (count_task_lines buffer : Int) else ci.nr_running
  if nr_entries ≤ 0 then .ok []
  else parse_task_lines fuel env buffer nr_entries

/-- `sched_debug_parse` (sched_debug.c:507): returns the C return value
together with the updated `cpu_info`.  A missing per-CPU block clears
the CPU's state and returns 0; in the new format a missing aggregate
counter returns `-EINVAL` (-22) with the state untouched; otherwise the
waiting tasks are parsed and merged against the retained ones.  (The
dangling `starving` pointer the C code leaves behind when
`fill_waiting_task` returns without allocating is a memory-layout fact
with no content; the model keeps the computed, empty list.) -/
def sched_debug_parse (fuel : Nat) (env : Env) (ci : cpu_info)
    (buffer : Cstr) (buffer_size : Nat) : CResult (Int × cpu_info) :=
  let old_tasks := ci.starving
  match alloc_and_fill_cpu_buffer env.x86 ci.id buffer buffer_size with
  | none =>
    .ok (0, { ci with nr_waiting_tasks := 0, nr_running := 0,
                      nr_rt_running := 0, starving := none })
  | some cpu_buffer =>
    let counters : Option (Int × Int) :=
      if env.fmt = .new then
        let nr := get_variable_long_value cpu_buffer (".nr_running".toList)
        let nrt := get_variable_long_value cpu_buffer (".rt_nr_running".toList)
        if nr = -1 ∨ nrt = -1 then none else some (nr, nrt)
      else some (0, 0)
    match counters with
    | none => .ok (-22, ci)
    | some (nr, nrt) =>
      let ci1 := { ci with nr_running := nr, nr_rt_running := nrt }
      match fill_waiting_task fuel env cpu_buffer ci1 with
      | .died => .died
      | .hang => .hang
      | .ok fresh =>
        let merged :=
          match old_tasks with
          | some olds => merge_taks_info olds fresh
          | none => fresh
        .ok (0, { ci1 with nr_waiting_tasks := (fresh.length : Int),
                           starving := some merged })

/-- `sched_debug_has_starving_task` (sched_debug.c:561): new format
tests `nr_rt_running`, old format tests `nr_waiting_tasks`. -/
def sched_debug_has_starving_task (env : Env) (ci : cpu_info) : Bool :=
  if env.fmt = .new then ci.nr_rt_running != 0 else ci.nr_waiting_tasks != 0

/-- The outcome of opening and reading the sched_debug dump for one
`sched_debug_get` call. -/
inductive DumpRead where
  | openFail
  | readFail
  | content : Cstr → DumpRead

/-- `sched_debug_get` (sched_debug.c:33): result is
`(return value, new config_buffer_size, index of the NUL store if it
was executed)`.  Open or read failure returns 0 without storing a NUL
and without touching `config_buffer_size`; a successful read loop reads
`min (file length) size` bytes, stores NUL at `position-1`, then
doubles `config_buffer_size` when `position + 100` exceeds it. -/
def sched_debug_get (f : DumpRead) (size : Nat) (bufsize : Nat) :
    Nat × Nat × Option Int :=
  match f with
  | .openFail => (0, bufsize, none)
  | .readFail => (0, bufsize, none)
  | .content l =>
    let position := min l.length size
    let storeIdx : Int := (position : Int) - 1
    let bufsize' := if bufsize < position + 100 then bufsize * 2 else bufsize
    (position, bufsize', some storeIdx)

/-- Does a header word prefix-match one of the four keywords
`detect_task_format` looks for?  (The four keywords begin with distinct
characters, so the C `else if` chain tests each word against each
keyword independently.) -/
def matchesKw (w : Cstr) : Bool :=
  ("task".toList).isPrefixOf w || ("PID".toList).isPrefixOf w ||
  ("switches".toList).isPrefixOf w || ("prio".toList).isPrefixOf w

/-- The header-scanning loop of `detect_task_format`
(sched_debug.c:259-283) over the whitespace-separated words of the
header line: each word is prefix-compared (`strncmp`) against the four
keywords; a match stores the word index and bumps `count`. -/
def scanHeader : List Cstr → Nat → TaskOffsets → Nat → TaskOffsets × Nat
  | [], _, offs, count => (offs, count)
  | w :: ws, i, offs, count =>
    if ("task".toList).isPrefixOf w then
      scanHeader ws (i + 1) { offs with task := i } (count + 1)
    else if ("PID".toList).isPrefixOf w then
      scanHeader ws (i + 1) { offs with pid := i } (count + 1)
    else if ("switches".toList).isPrefixOf w then
      scanHeader ws (i + 1) { offs with switches := i } (count + 1)
    else if ("prio".toList).isPrefixOf w then
      scanHeader ws (i + 1) { offs with prio := i } (count + 1)
    else scanHeader ws (i + 1) offs count

/-- Split a string into maximal whitespace-free words (the accumulator
holds the current word reversed). -/
def cwordsAux : Cstr → Cstr → List Cstr
  | [], acc => if acc.isEmpty then [] else [acc.reverse]
  | c :: t, acc =>
    if isspace c then
      if acc.isEmpty then cwordsAux t [] else acc.reverse :: cwordsAux t []
    else cwordsAux t (c :: acc)

/-- The whitespace-separated words of the line `s` starts (up to its
first newline).  The C scan walks the header with
`skipspaces`/`skipchars` until `'\n'`; on a newline-terminated line this
enumerates exactly these words, in order, with these indices. -/
def lineWords (s : Cstr) : List Cstr :=
  cwords (s.takeWhile (fun c => !(c == '\n')))
where
  cwords (s : Cstr) : List Cstr := cwordsAux s []

/-- `detect_task_format` (sched_debug.c:191), the part after the dump
has been slurped (the read loop and the `config_buffer_size` side
effect are covered by `sched_debug_get`'s model): `die` when the task
marker is absent; the format is `new` iff the header's first word
starts with `S`; the header words are scanned for the four keywords and
`die` fires unless exactly four matches were counted.  A header line
not terminated by a newline would make the C scan loop forever
(`hang`), as would a missing line after the marker (NULL
dereference). -/
def detect_task_format (file : Cstr) : CResult (TaskFormat × TaskOffsets) :=
  match strstr TASK_MARKER file with
  | none => .died
  | some p =>
    match nextline p with
    | none => .hang
    | some hdr =>
      if '\n' ∈ hdr then
        let hdr1 := skipspaces hdr
        let fmt := if hdr1.head? = some 'S' then TaskFormat.new
                   else TaskFormat.old
        let scanned := scanHeader (lineWords hdr) 0 ⟨0, 0, 0, 0⟩ 0
        if scanned.2 = 4 then .ok (fmt, scanned.1) else .died
      else .hang

/-- The per-CPU block exactly as claim C7 words it: the text from the
`cpu#<N>` header (trailing comma on x86, newline otherwise) up to, but
not including, the next `cpu#` header, or to the end of the dump when
no later header exists. -/
def claimedCpuBlock (x86 : Bool) (buffer : Cstr) (cpu : Int) : Option Cstr :=
  match get_cpu_info_start x86 buffer cpu with
  | none => none
  | some cs =>
    match strstr ("cpu#".toList) (cs.drop 1) with
    | some nx => some (cs.take (cs.length - nx.length))
    | none => some cs

/-- Project the pid column out of a parse result (used to exhibit what
the parser produced on a concrete block). -/
def pidsOf (r : CResult (List task_info)) : Option (List Int) :=
  match r with
  | .ok l => some (l.map task_info.pid)
  | _ => none

/-- A stat oracle under which every nonzero tid is in state `R`.  -/
def oracleR : Int → Option Cstr := fun _ => some ("1 (x) R 0".toList)

/-- Concrete old-format environment: offsets as detected from the
3.10-kernel header `task PID tree-key switches prio ...`. -/
def envOld : Env :=
  { x86 := false, fmt := .old, offs := ⟨0, 1, 3, 4⟩,
    statOf := oracleR, tgidOf := fun _ => 0, now := 0 }

/-- Concrete new-format environment: offsets as detected from the
4.18-kernel header `S task PID tree-key switches prio ...`. -/
def envNew : Env :=
  { x86 := false, fmt := .new, offs := ⟨1, 2, 4, 5⟩,
    statOf := oracleR, tgidOf := fun _ => 0, now := 0 }

/-- A stateless-format CPU block with an `R`-marked running task (pid
99) and a runnable waiter (pid 20): the input exhibiting claim C1's
divergence. -/
def c1buf : Cstr :=
  ("runnable tasks:\n" ++
   "            task   PID         tree-key  switches  prio\n" ++
   "----------\n" ++
   " R 99 7 8 100\n" ++
   "          waiter 20 5 6 200\n").toList

/-- Where `line` points throughout `parse_task_lines` on `c1buf`: the
divider line (only two `nextline` calls are made from the marker). -/
def c1line : Cstr :=
  ("----------\n" ++
   " R 99 7 8 100\n" ++
   "          waiter 20 5 6 200\n").toList

/-- The stable value of `ptr` inside the loop on `c1buf`: the position
after skipping `prio`-many words of the divider line. -/
def c1ptr1 : Cstr := skipwords c1line 4

/-- A retained task used to exercise the state-clearing path of
`sched_debug_parse`. -/
def tA : task_info := ⟨"x".toList, 42, 0, 7, 0, 100⟩

/-- Retained per-CPU state for CPU 5 that still holds a waiting task. -/
def c4ci : cpu_info := ⟨5, 3, 1, 1, some [tA]⟩

/-- A dump that holds no block for CPU 5. -/
def c4buf : Cstr := "cpu#0\nsome text\n".toList

/-- Cleared per-CPU state for CPU 5, as left by a failed snapshot. -/
def c4ciCleared : cpu_info := ⟨5, 0, 0, 0, none⟩

/-- A new-format CPU block carrying `.nr_running` but no
`.rt_nr_running` line. -/
def c3buf : Cstr :=
  ("cpu#0\n" ++
   "  .nr_running : 3\n" ++
   "runnable tasks:\n" ++
   " S            task   PID\n" ++
   "--\n").toList

/-- Fresh per-CPU state for CPU 0. -/
def c3ci : cpu_info := ⟨0, 0, 0, 0, none⟩

/-- A stateless-format block with a single task line (expected entry
count 1). -/
def c9buf : Cstr :=
  ("runnable tasks:\n" ++
   "            task   PID         tree-key  switches  prio\n" ++
   "----------\n" ++
   "          waiter 20 5 6 200\n").toList

/-- A block whose third line (the one the parser treats as the task
line) starts with a 24-character name, longer than the comm capacity. -/
def c8buf : Cstr :=
  ("runnable tasks:\n" ++
   "header\n" ++
   "Averyverylongcommname123 42 9 13 120\n" ++
   "other 7 1 2 3\n").toList

/-- The task the parser stores for `c8buf`: the name truncated to 15
bytes. -/
def c8task : task_info := ⟨"Averyverylongco".toList, 42, 0, 13, 120, 0⟩

/-- A dump whose header contains two `task`-prefixed words and no
`prio` word: the input refuting claim C6. -/
def c6file : Cstr :=
  ("cpu#0\nrunnable tasks:\n task tasks PID switches\n-\n a 1 2 3\n").toList

/-- The text following the marker line of `c6file` (its header line and
the rest). -/
def c6hdr : Cstr := (" task tasks PID switches\n-\n a 1 2 3\n").toList

/-- A realistic 4.18-format header line (and trailing divider). -/
def c6goodHdr : Cstr :=
  (" S            task   PID         tree-key  switches  prio  wait-time\n" ++
   "-----------\n").toList

/-- The suffix of `c6good` starting at the task marker. -/
def c6goodMark : Cstr := ("runnable tasks:\n").toList ++ c6goodHdr

/-- A well-formed new-format dump on which detection succeeds. -/
def c6good : Cstr := ("cpu#0\n.nr_running : 1\n").toList ++ c6goodMark

/-- A two-CPU dump (non-x86 headers); the CPU-0 block's trailing
newline is the character the extraction drops. -/
def c7buf : Cstr := ("cpu#0\nAAAAAAAA\ncpu#1\nB\n").toList

section Lemmas

theorem dropWhile_append_all {p : Char → Bool} {l1 l2 : Cstr}
    (h : ∀ a ∈ l1, p a = true) :
    List.dropWhile p (l1 ++ l2) = List.dropWhile p l2 := by
  induction l1 with
  | nil => rfl
  | cons a t ih =>
    have ha := h a (List.mem_cons_self a t)
    simp [List.dropWhile, ha]
    exact ih (fun b hb => h b (List.mem_cons_of_mem a hb))

theorem bool_ne_true {b : Bool} (h : ¬ b = true) : b = false := by
  cases b
  · rfl
  · exact absurd rfl h

theorem dropWhile_head_neg {p : Char → Bool} {l : Cstr}
    (h : ∀ a ∈ l.head?, p a = false) :
    List.dropWhile p l = l := by
  cases l with
  | nil => rfl
  | cons a t =>
    have := h a (by simp)
    simp [List.dropWhile, this]

/-- One `skipchars` step across a word `a :: w` up to the first
whitespace character `b`. -/
theorem skipchars_run (a : Char) (w : Cstr) (b : Char) (r : Cstr)
    (ha : isspace a = false) (hw : ∀ c ∈ w, isspace c = false)
    (hb : isspace b = true) :
    skipchars (a :: (w ++ (b :: r))) = b :: r := by
  unfold skipchars
  rw [List.dropWhile_cons]
  simp only [ha, Bool.not_false, if_true]
  rw [dropWhile_append_all (fun c hc => by simp [hw c hc])]
  rw [List.dropWhile_cons]
  simp [hb]

/-- One `skipspaces` step across a run `a :: s` of non-newline
whitespace up to the first non-whitespace character `b`. -/
theorem skipspaces_run (a : Char) (s : Cstr) (b : Char) (r : Cstr)
    (ha : isspace a = true ∧ a ≠ '\n')
    (hs : ∀ c ∈ s, isspace c = true ∧ c ≠ '\n')
    (hb : isspace b = false) :
    skipspaces (a :: (s ++ (b :: r))) = b :: r := by
  unfold skipspaces
  rw [List.dropWhile_cons]
  simp only [ha.1, ha.2, Bool.and_self, bne_iff_ne, ne_eq,
    not_false_eq_true, if_true, Bool.true_and]
  rw [dropWhile_append_all (fun c hc => by
    have := hs c hc
    simp [this.1, this.2])]
  rw [List.dropWhile_cons]
  simp [hb]

end Lemmas

/-- C2: for every positive tid, the per-thread state probe reports
not-runnable on IO error, and, when `/proc/<tid>/stat` consists of three
whitespace-delimited fields `w0`, `w1`, `w2` (followed by anything),
reports runnable exactly when the third field starts with `R`. -/
theorem c2_is_runnable_third_field
    (statOf : Int → Option Cstr) (pid : Int) (hpid : 0 < pid) :
    (statOf pid = none → is_runnable statOf pid = false) ∧
    (∀ w0 s1 w1 s2 w2 rest : Cstr,
      statOf pid = some (w0 ++ s1 ++ w1 ++ s2 ++ w2 ++ rest) →
      (w0 ++ s1 ++ w1 ++ s2 ++ w2 ++ rest).length ≤ 512 →
      w0 ≠ [] → s1 ≠ [] → w1 ≠ [] → s2 ≠ [] → w2 ≠ [] →
      (∀ c ∈ w0, isspace c = false) →
      (∀ c ∈ w1, isspace c = false) →
      (∀ c ∈ w2, isspace c = false) →
      (∀ c ∈ s1, isspace c = true ∧ c ≠ '\n') →
      (∀ c ∈ s2, isspace c = true ∧ c ≠ '\n') →
      (is_runnable statOf pid = true ↔ w2.head? = some 'R')) := by
  have hpid0 : pid ≠ 0 := by omega
  constructor
  · intro hnone
    simp [is_runnable, hpid0, hnone]
  · intro w0 s1 w1 s2 w2 rest hsome hlen hw0 hs1 hw1 hs2 hw2 pw0 pw1 pw2 ps1 ps2
    obtain ⟨a0, w0', rfl⟩ := List.exists_cons_of_ne_nil hw0
    obtain ⟨b1, s1', rfl⟩ := List.exists_cons_of_ne_nil hs1
    obtain ⟨a1, w1', rfl⟩ := List.exists_cons_of_ne_nil hw1
    obtain ⟨b2, s2', rfl⟩ := List.exists_cons_of_ne_nil hs2
    obtain ⟨a2, w2', rfl⟩ := List.exists_cons_of_ne_nil hw2
    have hshape : (a0 :: w0') ++ (b1 :: s1') ++ (a1 :: w1') ++ (b2 :: s2')
        ++ (a2 :: w2') ++ rest
        = a0 :: (w0' ++ (b1 :: (s1' ++ (a1 :: (w1' ++ (b2 :: (s2'
            ++ (a2 :: (w2' ++ rest))))))))) := by
      simp [List.append_assoc]
    have htake : ((a0 :: w0') ++ (b1 :: s1') ++ (a1 :: w1') ++ (b2 :: s2')
        ++ (a2 :: w2') ++ rest).take 512
        = (a0 :: w0') ++ (b1 :: s1') ++ (a1 :: w1') ++ (b2 :: s2')
          ++ (a2 :: w2') ++ rest :=
      List.take_of_length_le hlen
    have key : skipspaces (skipchars (skipspaces (skipchars
        ((a0 :: w0') ++ (b1 :: s1') ++ (a1 :: w1') ++ (b2 :: s2')
          ++ (a2 :: w2') ++ rest)))) = a2 :: (w2' ++ rest) := by
      rw [hshape]
      rw [skipchars_run a0 w0' b1 _
        (pw0 a0 (by simp)) (fun c hc => pw0 c (by simp [hc]))
        (ps1 b1 (by simp)).1]
      rw [skipspaces_run b1 s1' a1 _
        (ps1 b1 (by simp)) (fun c hc => ps1 c (by simp [hc]))
        (pw1 a1 (by simp))]
      rw [skipchars_run a1 w1' b2 _
        (pw1 a1 (by simp)) (fun c hc => pw1 c (by simp [hc]))
        (ps2 b2 (by simp)).1]
      rw [skipspaces_run b2 s2' a2 _
        (ps2 b2 (by simp)) (fun c hc => ps2 c (by simp [hc]))
        (pw2 a2 (by simp))]
    simp only [is_runnable, hpid0, if_false, hsome, htake, key,
      List.head?_cons, Option.some_inj, beq_iff_eq]

/-- Witness for C2 at a concrete probe: tid 7 with stat
`"7 (x) R 0"` is reported runnable. -/
theorem c2_witness :
    is_runnable
      (fun p => if p = 7 then some ("7 (x) R 0".toList) else none) 7 = true := by
  have h := (c2_is_runnable_third_field
      (fun p => if p = 7 then some ("7 (x) R 0".toList) else none) 7
      (by norm_num)).2
      "7".toList " ".toList "(x)".toList " ".toList "R".toList " 0".toList
      (by decide) (by decide) (by decide) (by decide) (by decide) (by decide)
      (by decide) (by decide) (by decide) (by decide) (by decide) (by decide)
  exact h.mpr (by decide)

/-- C1 helper: on `c1buf` the parse loop state repeats verbatim (the C
loop never advances `line`, the stale `ptr` never reads `'R'`, and the
divider line yields pid 0, which the probe rejects), so no amount of
fuel lets it finish. -/
theorem c1_loop_fix : ∀ n : Nat, parseLoop envOld 2 n [] c1ptr1 c1line = .hang := by
  intro n
  induction n with
  | zero => rfl
  | succ k ih => exact ih

/-- C1: the claim fails because the code is wrong.  On a stateless-format
block with an `R`-marked running task and a runnable waiter (pid 20,
reported runnable by the probe), `parse_task_lines` never returns at
all: `line` is never advanced past the divider (only two `nextline`
calls are made and none inside the loop), the `'R'` test reads a stale
`ptr` and never fires, and the divider parses to pid 0, which
`is_runnable` rejects, so the loop repeats its state forever.  The
expected waiting list `[20]` is never produced. -/
theorem c1_stateless_parse_never_completes :
    (∀ fuel : Nat, parse_task_lines fuel envOld c1buf 2 = .hang) ∧
    count_task_lines c1buf = 2 ∧
    is_runnable envOld.statOf 20 = true := by
  refine ⟨?_, by decide, by decide⟩
  intro fuel
  cases fuel with
  | zero => rfl
  | succ n => exact c1_loop_fix n

/-- C3: with the new (stateful) format, a per-CPU block from which
either aggregate counter cannot be read makes `sched_debug_parse`
return `-EINVAL` with the CPU's retained state untouched (no `die`, so
the failure is confined to this CPU and this cycle); and when parsing
proceeds, `nr_running` is exactly the expected waiting-set size handed
to the task-line parser. -/
theorem c3_missing_counters (fuel : Nat) (env : Env) (ci : cpu_info)
    (buffer : Cstr) (bsize : Nat) (cb : Cstr)
    (halloc : alloc_and_fill_cpu_buffer env.x86 ci.id buffer bsize = some cb)
    (hfmt : env.fmt = .new) :
    (get_variable_long_value cb (".nr_running".toList) = -1 ∨
     get_variable_long_value cb (".rt_nr_running".toList) = -1 →
      sched_debug_parse fuel env ci buffer bsize = .ok (-22, ci)) ∧
    (∀ ci' : cpu_info, 0 < ci'.nr_running →
      fill_waiting_task fuel env cb ci' =
        parse_task_lines fuel env cb ci'.nr_running) := by
  constructor
  · intro hmiss
    simp only [sched_debug_parse, halloc, hfmt]
    rw [if_pos hmiss]
    rfl
  · intro ci' hpos
    have hno : (TaskFormat.new = TaskFormat.old) = False := by simp
    simp only [fill_waiting_task, hfmt, hno, if_false]
    rw [if_neg (by omega)]

/-- C3 witness: a concrete new-format block with `.nr_running` but no
`.rt_nr_running` is skipped with `-EINVAL` and unchanged state. -/
theorem c3_witness :
    sched_debug_parse 5 envNew c3ci c3buf (c3buf.length + 1)
      = .ok (-22, c3ci) :=
  (c3_missing_counters 5 envNew c3ci c3buf (c3buf.length + 1) c3buf
    (by decide) rfl).1 (Or.inr (by decide))

/-- C4: when no block for the CPU exists in the dump (the CPU is
offline), `sched_debug_parse` clears that CPU's retained state, returns
success, and the cleared state offers no starving candidate; nothing
else is touched, so later cycles start from a pristine state for that
CPU. -/
theorem c4_failed_snapshot_drops_cpu_only (fuel : Nat) (env : Env)
    (ci : cpu_info) (buffer : Cstr) (bsize : Nat)
    (halloc : alloc_and_fill_cpu_buffer env.x86 ci.id buffer bsize = none) :
    sched_debug_parse fuel env ci buffer bsize
      = .ok (0, { ci with nr_waiting_tasks := 0, nr_running := 0,
                          nr_rt_running := 0, starving := none }) ∧
    sched_debug_has_starving_task env
      { ci with nr_waiting_tasks := 0, nr_running := 0,
                nr_rt_running := 0, starving := none } = false := by
  constructor
  · simp only [sched_debug_parse]
    rw [halloc]
  · cases h : env.fmt <;> simp [sched_debug_has_starving_task, h]

/-- C4 witness: CPU 5 is absent from a concrete dump; its state is
cleared and the cycle result is success. -/
theorem c4_witness :
    sched_debug_parse 3 envOld c4ci c4buf (c4buf.length + 1)
      = .ok (0, c4ciCleared) :=
  (c4_failed_snapshot_drops_cpu_only 3 envOld c4ci c4buf
    (c4buf.length + 1) (by decide)).1

/-- C5: `config_buffer_size` never shrinks across a snapshot read, and
whenever a successful read fills the buffer to within 100 bytes of the
recorded size, the recorded size is doubled (strictly grows, the size
being positive after initialisation). -/
theorem c5_buffer_monotone (f : DumpRead) (size bufsize : Nat)
    (h0 : 0 < bufsize) :
    bufsize ≤ (sched_debug_get f size bufsize).2.1 ∧
    (∀ l : Cstr, f = .content l → bufsize < min l.length size + 100 →
      (sched_debug_get f size bufsize).2.1 = 2 * bufsize ∧
      bufsize < (sched_debug_get f size bufsize).2.1) := by
  cases f with
  | openFail =>
    refine ⟨le_refl _, ?_⟩
    intro l hl
    exact absurd hl (by simp)
  | readFail =>
    refine ⟨le_refl _, ?_⟩
    intro l hl
    exact absurd hl (by simp)
  | content l =>
    constructor
    · simp only [sched_debug_get]
      split <;> omega
    · intro l' hl hlt
      have : l' = l := by injection hl.symm
      subst this
      simp only [sched_debug_get]
      rw [if_pos (by omega)]
      constructor
      · omega
      · omega

/-- C5 witness: a two-byte dump read with recorded size 50 lands within
the 100-byte threshold and doubles the recorded size to 100. -/
theorem c5_witness :
    50 ≤ (sched_debug_get (.content ['a', 'b']) 5 50).2.1 ∧
    (sched_debug_get (.content ['a', 'b']) 5 50).2.1 = 2 * 50 ∧
    50 < (sched_debug_get (.content ['a', 'b']) 5 50).2.1 :=
  have h := c5_buffer_monotone (.content ['a', 'b']) 5 50 (by norm_num)
  ⟨h.1, (h.2 _ rfl (by decide)).1, (h.2 _ rfl (by decide)).2⟩

/-- C9 helper: a positive task-line count implies the task marker was
found. -/
theorem count_pos_marker (buffer : Cstr)
    (h : 0 < count_task_lines buffer) :
    (strstr TASK_MARKER buffer).isSome = true := by
  unfold count_task_lines at h
  cases hm : strstr TASK_MARKER buffer with
  | none => rw [hm] at h; simp at h
  | some p => simp

/-- C9: when the expected entry count is below two — fewer than two
counted task lines in the stateless format, or `nr_running` below two
in the stateful format (with the block containing the task marker, as
every well-formed block does) — the produced waiting list is empty. -/
theorem c9_few_entries_empty_list (fuel : Nat) (env : Env) (buffer : Cstr)
    (ci : cpu_info) :
    (env.fmt = .old → count_task_lines buffer < 2 →
      fill_waiting_task fuel env buffer ci = .ok []) ∧
    (env.fmt = .new → ci.nr_running < 2 →
      (strstr TASK_MARKER buffer).isSome = true →
      fill_waiting_task fuel env buffer ci = .ok []) := by
  constructor
  · intro hfmt hcnt
    simp only [fill_waiting_task, hfmt, if_true, reduceIte]
    by_cases h0 : count_task_lines buffer = 0
    · simp [h0]
    · have h1 : count_task_lines buffer = 1 := by omega
      rw [h1]
      rw [if_neg (by norm_num)]
      obtain ⟨p, hp⟩ := Option.isSome_iff_exists.mp
        (count_pos_marker buffer (by omega))
      simp [parse_task_lines, hp]
  · intro hfmt hnr hmark
    have hne : env.fmt ≠ TaskFormat.old := by
      rw [hfmt]
      intro hcontra
      cases hcontra
    simp only [fill_waiting_task, if_neg hne]
    by_cases h0 : ci.nr_running ≤ 0
    · rw [if_pos h0]
    · rw [if_neg h0]
      obtain ⟨p, hp⟩ := Option.isSome_iff_exists.mp hmark
      simp [parse_task_lines, hp]
      intro hge
      omega

/-- C9 witness: a stateless block with a single task line yields the
empty waiting list. -/
theorem c9_witness :
    fill_waiting_task 4 envOld c9buf c3ci = .ok [] :=
  (c9_few_entries_empty_list 4 envOld c9buf c3ci).1 rfl (by decide)

/-- C10 counterexample: with a dump that opens but yields zero bytes,
the NUL store is executed at index `-1`, outside every buffer — the
claim's "including the case where the file yields zero bytes" is
false. -/
theorem c10_counterexample :
    (sched_debug_get (.content []) 4096 4096).2.2 = some (-1) ∧
    ¬ (0 ≤ (-1 : Int)) := by
  constructor
  · rfl
  · decide

/-- C10 (amended): whenever the dump opens successfully and yields at
least one byte, and the caller-supplied size is positive, the NUL store
at `position - 1` is within the buffer bounds. -/
theorem c10_nul_store_in_bounds (l : Cstr) (size bufsize : Nat)
    (hl : l ≠ []) (hs : 0 < size) :
    (sched_debug_get (.content l) size bufsize).2.2
      = some (((min l.length size : Nat) : Int) - 1) ∧
    0 ≤ (((min l.length size : Nat) : Int) - 1) ∧
    (((min l.length size : Nat) : Int) - 1) < (size : Int) := by
  have hpos : 0 < l.length := List.length_pos.mpr hl
  refine ⟨rfl, ?_, ?_⟩ <;> · simp; omega

/-- C10 witness: a one-byte dump read into a four-byte buffer stores
the NUL at index 0. -/
theorem c10_witness :
    (sched_debug_get (.content ['a']) 4 4096).2.2
      = some (((min (List.length ['a']) 4 : Nat) : Int) - 1) ∧
    0 ≤ (((min (List.length ['a']) 4 : Nat) : Int) - 1) ∧
    (((min (List.length ['a']) 4 : Nat) : Int) - 1) < (4 : Int) :=
  c10_nul_store_in_bounds ['a'] 4 4096 (by decide) (by decide)

/-- C8 helper: every task the parse loop appends carries a comm of at
most `COMM_SIZE - 1` characters (the clamp before `strncpy`). -/
theorem parseLoop_comm_le (env : Env) (nr : Int) :
    ∀ (fuel : Nat) (tasks : List task_info) (ptr line : Cstr)
      (l : List task_info),
      parseLoop env nr fuel tasks ptr line = .ok l →
      (∀ t ∈ tasks, t.comm.length ≤ COMM_SIZE - 1) →
      ∀ t ∈ l, t.comm.length ≤ COMM_SIZE - 1 := by
  intro fuel
  induction fuel with
  | zero =>
    intro tasks ptr line l h
    simp [parseLoop] at h
  | succ k ih =>
    intro tasks ptr line l h ht
    simp only [parseLoop] at h
    by_cases h1 : (tasks.length : Int) ≥ nr
    · rw [if_pos h1] at h
      injection h with h
      subst h
      exact ht
    · rw [if_neg h1] at h
      by_cases h2 : env.fmt = .old ∧ ptr.head? = some 'R'
      · rw [if_pos h2] at h
        cases hd : dropThrough '\n' ptr with
        | none => rw [hd] at h; exact absurd h (by simp)
        | some rest =>
          rw [hd] at h
          exact ih tasks rest line l h ht
      · rw [if_neg h2] at h
        by_cases h3 : env.fmt = .new ∨
            is_runnable env.statOf
              (strtol (skipwords line env.offs.pid)) = true
        · rw [if_pos h3] at h
          refine ih _ _ _ l h ?_
          intro t htl
          rcases List.mem_append.mp htl with hin | hnew
          · exact ht t hin
          · rw [List.mem_singleton] at hnew
            subst hnew
            dsimp only
            simp only [List.length_take, COMM_SIZE]
            omega
        · rw [if_neg h3] at h
          exact ih tasks _ line l h ht

/-- C8: every task produced by `parse_task_lines` has a comm of at most
15 bytes (the extracted name field is truncated to the comm capacity
before being stored, and the terminator is implicit in the model). -/
theorem c8_comm_truncated (fuel : Nat) (env : Env) (buffer : Cstr)
    (nr_entries : Int) (l : List task_info)
    (h : parse_task_lines fuel env buffer nr_entries = .ok l) :
    l.all (fun t => t.comm.length ≤ COMM_SIZE - 1) = true := by
  rw [List.all_eq_true]
  intro t htl
  rw [decide_eq_true_eq]
  unfold parse_task_lines at h
  cases hm : strstr TASK_MARKER buffer with
  | none => rw [hm] at h; exact absurd h (by simp)
  | some p =>
    simp only [hm] at h
    by_cases hnr : nr_entries < 2
    · rw [if_pos hnr] at h
      injection h with h
      subst h
      exact absurd htl (by simp)
    · rw [if_neg hnr] at h
      cases hn1 : nextline p with
      | none => simp only [hn1] at h; exact absurd h (by simp)
      | some l1 =>
        simp only [hn1] at h
        cases hn2 : nextline l1 with
        | none => simp only [hn2] at h; exact absurd h (by simp)
        | some line =>
          simp only [hn2] at h
          exact parseLoop_comm_le env nr_entries fuel [] p line l h
            (by simp) t htl

/-- C8 witness: a 24-character name is stored truncated to 15 bytes for
both produced entries. -/
theorem c8_witness :
    List.all [c8task, c8task]
      (fun t => t.comm.length ≤ COMM_SIZE - 1) = true :=
  c8_comm_truncated 5 envOld c8buf 2 [c8task, c8task] (by decide)

/-- C6 helper: the header scan's final count is the number of header
words prefix-matched by one of the four keywords (counted with
multiplicity; the four keywords start with pairwise distinct
characters, so each word matches at most one keyword). -/
theorem scanHeader_count (ws : List Cstr) :
    ∀ (i : Nat) (offs : TaskOffsets) (c : Nat),
      (scanHeader ws i offs c).2 = c + (ws.filter matchesKw).length := by
  induction ws with
  | nil => intro i offs c; simp [scanHeader]
  | cons w t ih =>
    intro i offs c
    simp only [scanHeader]
    by_cases h1 : ("task".toList).isPrefixOf w = true
    · rw [if_pos h1, ih]
      have hm : matchesKw w = true := by
        unfold matchesKw
        rw [h1]
        rfl
      simp [List.filter_cons, hm]
      try omega
    · rw [if_neg h1]
      by_cases h2 : ("PID".toList).isPrefixOf w = true
      · rw [if_pos h2, ih]
        have hm : matchesKw w = true := by
          unfold matchesKw
          rw [bool_ne_true h1, h2]
          rfl
        simp [List.filter_cons, hm]
        try omega
      · rw [if_neg h2]
        by_cases h3 : ("switches".toList).isPrefixOf w = true
        · rw [if_pos h3, ih]
          have hm : matchesKw w = true := by
            unfold matchesKw
            rw [bool_ne_true h1, bool_ne_true h2, h3]
            rfl
          simp [List.filter_cons, hm]
          try omega
        · rw [if_neg h3]
          by_cases h4 : ("prio".toList).isPrefixOf w = true
          · rw [if_pos h4, ih]
            have hm : matchesKw w = true := by
              unfold matchesKw
              rw [bool_ne_true h1, bool_ne_true h2,
                bool_ne_true h3, h4]
              rfl
            simp [List.filter_cons, hm]
            try omega
          · rw [if_neg h4, ih]
            have hm : matchesKw w = false := by
              unfold matchesKw
              rw [bool_ne_true h1, bool_ne_true h2,
                bool_ne_true h3, bool_ne_true h4]
              rfl
            simp [List.filter_cons, hm]
            try omega

/-- C6 (amended): header detection fails fatally precisely when the
number of header words carrying one of `task`, `PID`, `switches`,
`prio` as a prefix — counted with multiplicity — is not exactly four;
a missing keyword is therefore fatal only when no other keyword
prefix-matches a second word. -/
theorem c6_header_scan_dies_iff (file p hdr : Cstr)
    (hm : strstr TASK_MARKER file = some p)
    (hn : nextline p = some hdr)
    (hnl : '\n' ∈ hdr) :
    (detect_task_format file = .died ↔
      ((lineWords hdr).filter matchesKw).length ≠ 4) := by
  simp only [detect_task_format, hm, hn]
  rw [if_pos hnl]
  rw [scanHeader_count]
  by_cases hc : ((lineWords hdr).filter matchesKw).length = 4
  · simp [hc]
  · simp [hc]

/-- C6 counterexample: a header with two `task`-prefixed words and no
`prio` word reaches a match count of four, so detection returns
normally (with a default `prio` offset of 0) even though `prio` was
never found — the claim's "fails fatally" is false for this input. -/
theorem c6_counterexample :
    detect_task_format c6file = .ok (.old, ⟨1, 2, 3, 0⟩) ∧
    ((strstr TASK_MARKER c6file).bind nextline) = some c6hdr ∧
    (lineWords c6hdr).all (fun w => !(("prio".toList).isPrefixOf w))
      = true := by
  refine ⟨by decide, by decide, by decide⟩

/-- C6 witness: on a realistic 4.18-format header every keyword matches
exactly once, the count is four, and detection does not die. -/
theorem c6_witness : detect_task_format c6good ≠ CResult.died := by
  intro hd
  exact ((c6_header_scan_dies_iff c6good c6goodMark c6goodHdr
    (by decide) (by decide) (by decide)).mp hd) (by decide)

/-- `strstr` returns a suffix, so the result is no longer than the
searched string. -/
theorem strstr_length_le (pat : Cstr) :
    ∀ s r : Cstr, strstr pat s = some r → r.length ≤ s.length := by
  intro s
  induction s with
  | nil =>
    intro r h
    unfold strstr at h
    split at h
    · injection h with h
      subst h
      exact le_refl _
    · exact absurd h (by simp)
  | cons a t ih =>
    intro r h
    unfold strstr at h
    split at h
    · injection h with h
      subst h
      exact le_refl _
    · exact Nat.le_succ_of_le (ih r h)

/-- A successful `strstr` result starts with the pattern. -/
theorem strstr_starts_with_pat (pat : Cstr) :
    ∀ s r : Cstr, strstr pat s = some r → pat.isPrefixOf r = true := by
  intro s
  induction s with
  | nil =>
    intro r h
    unfold strstr at h
    split at h
    · rename_i hp
      injection h with h
      subst h
      rw [hp]
      rfl
    · exact absurd h (by simp)
  | cons a t ih =>
    intro r h
    unfold strstr at h
    split at h
    · rename_i hp
      injection h with h
      subst h
      exact hp
    · exact ih r h

/-- A successful `strstr` result is at least as long as the pattern. -/
theorem strstr_pat_length_le (pat s r : Cstr) (h : strstr pat s = some r) :
    pat.length ≤ r.length :=
  (List.isPrefixOf_iff_prefix.mp (strstr_starts_with_pat pat s r h)).length_le

/-- Dropping the last element of a length-`d` prefix keeps the first
`d - 1` elements. -/
theorem dropLast_take (d : Nat) (l : Cstr) (hd : d ≤ l.length) :
    (l.take d).dropLast = l.take (d - 1) := by
  rw [List.dropLast_eq_take, List.take_take, List.length_take]
  congr 1
  omega

/-- C7 (amended): the block handed to the parser is the claim's text
with its final character replaced by the string terminator.  For an
interior block (a later `cpu#` header exists) the trailing character —
in practice the newline before the next header — is dropped; for the
last block the byte count passed by the caller includes the terminator
slot, so the text reaches the end of the dump intact.  (The hypothesis
equating the two searches discounts a `cpu#` occurring within 9 bytes
of the block start, which the 10-byte skip of
`get_next_cpu_info_start` would miss.) -/
theorem c7_block_is_claimed_text_minus_last (x86 : Bool)
    (buffer cs : Cstr) (cpu : Int) (bsize : Nat)
    (hcs : get_cpu_info_start x86 buffer cpu = some cs)
    (hagree : strstr ("cpu#".toList) (cs.drop 1)
      = strstr ("cpu#".toList) (cs.drop 10))
    (hb : bsize = buffer.length + 1) :
    alloc_and_fill_cpu_buffer x86 cpu buffer bsize =
      match strstr ("cpu#".toList) (cs.drop 1) with
      | some nx => some ((cs.take (cs.length - nx.length)).dropLast)
      | none => some cs := by
  have hcsl : cs.length ≤ buffer.length :=
    strstr_length_le (cpuHeader x86 cpu) buffer cs hcs
  simp only [alloc_and_fill_cpu_buffer, get_next_cpu_info_start, hcs]
  rw [← hagree]
  cases h1 : strstr ("cpu#".toList) (cs.drop 1) with
  | none =>
    simp only [h1]
    subst hb
    rw [if_neg (by omega)]
    congr 1
    have hn : (((buffer.length + 1 : Nat) : Int)
        - ((buffer.length : Int) - (cs.length : Int))).toNat - 1
        = cs.length := by
      omega
    rw [hn, List.take_length]
  | some nx =>
    have h2 : strstr ("cpu#".toList) (cs.drop 10) = some nx := by
      rw [← hagree]
      exact h1
    have hnx : nx.length ≤ (cs.drop 10).length :=
      strstr_length_le _ _ _ h2
    have hpat : ("cpu#".toList).length ≤ nx.length :=
      strstr_pat_length_le _ _ _ h2
    have hpat4 : ("cpu#".toList).length = 4 := rfl
    rw [List.length_drop] at hnx
    simp only [h1]
    rw [if_neg (by omega)]
    congr 1
    rw [dropLast_take (cs.length - nx.length) cs (by omega)]
    congr 1
    have hsz : (((buffer.length : Int) - (nx.length : Int))
        - ((buffer.length : Int) - (cs.length : Int))).toNat
        = cs.length - nx.length := by
      omega
    rw [hsz]

/-- C7 counterexample: on a concrete two-CPU dump the extracted CPU-0
block is not the claimed text — the trailing newline before the `cpu#1`
header is missing. -/
theorem c7_counterexample :
    alloc_and_fill_cpu_buffer false 0 c7buf (c7buf.length + 1)
      ≠ claimedCpuBlock false c7buf 0 := by
  decide

/-- C7 witness: on the same dump the amended description matches the
extraction exactly (the claimed text `"cpu#0\nAAAAAAAA\n"` minus its
final newline). -/
theorem c7_witness :
    alloc_and_fill_cpu_buffer false 0 c7buf (c7buf.length + 1)
      = some ("cpu#0\nAAAAAAAA".toList) := by
  have h := c7_block_is_claimed_text_minus_last false c7buf c7buf 0
    (c7buf.length + 1) (by decide) (by decide) rfl
  rw [h]
  decide
